import Mathlib

/-!
Shallow embedding of `redgifs_content_grabber.py` (the link-partitioning and
concurrent-download pipeline) and verification of its specification claims.

Modelling conventions:
* Python `str` is modelled as `List Char` (`Str`), so that the substring
  operations the source uses (`split`, `replace`, `in`) are executable
  structural recursions.
* Module-level globals read by a function (`args.mode`, `OUTPUT_DIR`,
  `THREADS_TO_USE`, `captured_links`, `downloaded_files_sizes_mb`, the real
  filesystem) are passed explicitly as parameters / an `Env` record, and
  mutations are returned as updated state.
* The network transport (`requests.get`) is a parameter `get : Nat → Option
  Response`: attempt `k` either raises `RequestException` (`none`) or returns
  a `Response` (`some r`), whose HTTP status is carried but never consulted,
  exactly as the source only reads `.content`.
* Python's dynamic typing of `content` in `safely_request_content` matters:
  the variable is initialised to the *str* `""` and only replaced by *bytes*
  on a successful request.  `PyContent` keeps that distinction, because
  `file.write` on a binary-mode file raises `TypeError` on a `str` argument.
-/

/-- Python strings, modelled as their character lists. -/
abbrev Str := List Char

/-- One step bound for `splitOnFuel`: every recursive call consumes at least
one character of the scanned string, so `s.length + 1` steps always suffice. -/
def splitFuel (s : Str) : Nat := s.length + 1

/-- Python `s.split(sep)` for a non-empty separator, by structural recursion on
a fuel argument (`splitFuel` of the scanned string always suffices; the fuel-0
branch is unreachable then).  `acc` is the current token, reversed. -/
def splitOnFuel (sep : Str) : Nat → Str → Str → List Str
  | 0, s, acc => [acc.reverse ++ s]
  | _ + 1, [], acc => [acc.reverse]
  | fuel + 1, c :: rest, acc =>
    if sep.isPrefixOf (c :: rest) ∧ sep ≠ [] then
      acc.reverse :: splitOnFuel sep fuel ((c :: rest).drop sep.length) []
    else
      splitOnFuel sep fuel rest (c :: acc)

/-- Python `s.split(sep)` (non-empty `sep`). -/
def pySplit (s sep : Str) : List Str := splitOnFuel sep (splitFuel s) s []

/-- Python `old in s` (substring containment test, via `split`:
the separator occurs iff the split has at least two parts). -/
def pyContains (s old : Str) : Bool := 2 ≤ (pySplit s old).length

/-- Python `s.replace(old, "")` — the source only ever replaces by the empty
string, which removes every non-overlapping left-to-right occurrence. -/
def pyRemove (s old : Str) : Str := (pySplit s old).flatten

/-- Python `s.lower()` (the identifiers involved are ASCII, where `str.lower`
agrees with `Char.toLower`). -/
def pyLower (s : Str) : Str := s.map Char.toLower

/-- `extract_file_name` (source lines 54–66): take the last `/`-segment, strip
query string and fragment, drop the `-mobile` / `-silent` / `-large` markers,
truncate at the first `.`; `"ERROR"` when the URL has no `/` at all. -/
def extract_file_name (url : Str) : Str :=
  let name_parts := pySplit url "/".toList
  if 1 < name_parts.length then
    let n1 := (pySplit (name_parts.getLastD []) "?".toList).headD []
    let n2 := (pySplit n1 "#".toList).headD []
    let n3 := pyRemove (pyRemove (pyRemove n2 "-mobile".toList) "-silent".toList) "-large".toList
    (pySplit n3 ".".toList).headD []
  else
    "ERROR".toList

/-- `build_real_url` (source lines 50–51). -/
def build_real_url (file_name : Str) : Str :=
  "https://api.redgifs.com/v2/gifs/".toList ++ pyLower file_name
    ++ "/files/".toList ++ file_name ++ ".mp4".toList

/-- Filename/URL derivation of `save_file` (source lines 70–78): returns
`(true_url, file_name)`.  In mode `"s"` the link itself is the identifier,
otherwise it is extracted from the URL; a raw link containing `.jpg` is
fetched as-is with extension `.jpg`, otherwise the true URL is synthesised
and the extension is `.mp4`. -/
def derive_names (mode input_ : Str) : Str × Str :=
  let file_name := if mode = "s".toList then input_ else extract_file_name input_
  if pyContains input_ ".jpg".toList then
    (input_, file_name ++ ".jpg".toList)
  else
    (build_real_url file_name, file_name ++ ".mp4".toList)

/-- `MAX_REQUEST_RETRIES` (source line 22). -/
def MAX_REQUEST_RETRIES : Nat := 5

/-- `THREADS_TO_USE` (source line 21). -/
def THREADS_TO_USE : Nat := 10

/-- An HTTP response delivered without a transport exception: `requests.get`
returns it whatever its status code is, and the source reads only `.content`
(the body). -/
structure Response where
  status : Nat
  body : Str
deriving DecidableEq

/-- The dynamic type of the `content` variable in `safely_request_content`:
initialised to the *str* `""`, replaced by the *bytes* of a response body on
the first successful request. -/
inductive PyContent where
  | str (s : Str)
  | bytes (b : Str)
deriving DecidableEq

/-- The loop state of `safely_request_content`: the `successful` flag, the
`content` variable and the number of `requests.get` calls performed so far. -/
structure FetchState where
  successful : Bool
  content : PyContent
  attempts : Nat
deriving DecidableEq

/-- One iteration of the retry loop (source lines 105–116): if already
successful, `break` (no further request); otherwise perform attempt number
`attempts` — a transport exception (`none`) is caught and logged, a delivered
response sets `content` to its body bytes and marks success. -/
def fetchStep (get : Nat → Option Response) (s : FetchState) : FetchState :=
  if s.successful then s
  else
    match get s.attempts with
    | some r => ⟨true, .bytes r.body, s.attempts + 1⟩
    | none => ⟨false, s.content, s.attempts + 1⟩

/-- `for _ in range(n)` around `fetchStep`. -/
def retry_loop (get : Nat → Option Response) : Nat → FetchState → FetchState
  | 0, s => s
  | n + 1, s => retry_loop get n (fetchStep get s)

/-- `safely_request_content` (source lines 101–118), with the transport passed
explicitly.  Returns the final loop state; the function's Python return value
is its `.content`, and `.attempts` counts the `requests.get` calls made. -/
def safely_request_content (get : Nat → Option Response) : FetchState :=
  retry_loop get MAX_REQUEST_RETRIES ⟨false, .str "".toList, 0⟩

/-- The exceptions that can leave the `try` block of `save_file`: `OSError`
(caught by the handler on line 95) and `TypeError` (raised by `file.write`
when handed a `str`, caught by nothing). -/
inductive PyExc where
  | typeError
  | osError
deriving DecidableEq

/-- The filesystem, as an association of existing paths to file byte sizes. -/
abbrev Fs := List (Str × Nat)

/-- `os.path.exists` on the modelled filesystem. -/
def path_exists (fs : Fs) (p : Str) : Bool := (fs.lookup p).isSome

/-- `is_duplicate` (source lines 46–47). -/
def is_duplicate (fs : Fs) (file_path : Str) : Bool := path_exists fs file_path

/-- Create-or-truncate `p` to `n` bytes (what `open(p, "wb")` does at size 0,
and what a completed `file.write` leaves behind). -/
def fs_set (fs : Fs) (p : Str) (n : Nat) : Fs :=
  (p, n) :: fs.filter (fun e => ¬ e.1 = p)

/-- The ambient state `save_file` reads and writes: the globals `args.mode`
and `OUTPUT_DIR`, the filesystem, the `downloaded_files_sizes_mb` list, the
transport (per URL), and which paths make `open(..., "wb")` respectively
`file.write` raise `OSError`. -/
structure Env where
  mode : Str
  output_dir : Str
  fs : Fs
  downloaded_files_sizes_mb : List ℚ
  get : Str → Nat → Option Response
  open_fails : Str → Bool
  write_fails : Str → Bool

/-- The outer effect of one `save_file` call: either the returned
`is_successful` flag or an uncaught exception, the number of `requests.get`
calls, and the updated filesystem and statistics list. -/
structure SaveOutcome where
  result : Except PyExc Bool
  networkCalls : Nat
  fs : Fs
  downloaded_files_sizes_mb : List ℚ

/-- The output path `save_file` writes to (source line 80). -/
def save_file_path (env : Env) (input_ : Str) : Str :=
  env.output_dir ++ "/".toList ++ (derive_names env.mode input_).2

/-- `save_file` (source lines 69–98).  Order of effects follows the source:
the duplicate check happens before any network call; `open(file_path, "wb")`
creates/truncates the file (and may raise `OSError`, caught) before the fetch,
which is evaluated as the argument of `file.write`; writing a `str` content
(the unreplaced `""` sentinel after retry exhaustion) raises `TypeError`,
which the `except OSError` handler does not catch; a completed write appends
`size / 1024**2` to `downloaded_files_sizes_mb` and reports success. -/
def save_file (env : Env) (input_ : Str) : SaveOutcome :=
  let true_url := (derive_names env.mode input_).1
  let file_path := save_file_path env input_
  if is_duplicate env.fs file_path then
    ⟨.ok false, 0, env.fs, env.downloaded_files_sizes_mb⟩
  else if env.open_fails file_path then
    ⟨.ok false, 0, env.fs, env.downloaded_files_sizes_mb⟩
  else
    let fetched := safely_request_content (env.get true_url)
    match fetched.content with
    | .str _ =>
      ⟨.error .typeError, fetched.attempts, fs_set env.fs file_path 0,
        env.downloaded_files_sizes_mb⟩
    | .bytes b =>
      if env.write_fails file_path then
        ⟨.ok false, fetched.attempts, fs_set env.fs file_path 0,
          env.downloaded_files_sizes_mb⟩
      else
        ⟨.ok true, fetched.attempts, fs_set env.fs file_path b.length,
          env.downloaded_files_sizes_mb ++ [(b.length : ℚ) / 1024 ^ 2]⟩

/-- Carry a `SaveOutcome`'s state updates back into the environment. -/
def env_after (env : Env) (o : SaveOutcome) : Env :=
  { env with fs := o.fs, downloaded_files_sizes_mb := o.downloaded_files_sizes_mb }

/-- One worker thread's body, `[save_file(f) for f in files]` (source line
229): process the batch sequentially, collecting the returned flags; an
uncaught exception from `save_file` kills the thread, abandoning the rest of
the batch (`none` exception means the batch ran to completion). -/
def run_batch (env : Env) : List Str → List Bool × Env × Option PyExc
  | [] => ([], env, none)
  | l :: rest =>
    let o := save_file env l
    match o.result with
    | .error e => ([], env_after env o, some e)
    | .ok b =>
      let r := run_batch (env_after env o) rest
      (b :: r.1, r.2.1, r.2.2)

/-- `math.ceil(a / b)` for natural `a` and positive `b`. -/
def ceil_div (a b : Nat) : Nat := (a + b - 1) / b

/-- The `while len(captured_links) > 0` loop of `get_captured_links_batches`
(source lines 35–36), by structural recursion on a fuel argument: each pass
pops up to `batchSize` elements off the set (modelled as a list in its
iteration order) into a new batch.  With `batchSize ≥ 1` a fuel of
`links.length` always suffices; a pass with `batchSize = 0` on a non-empty
set would loop forever in the source and is unreachable from
`get_captured_links_batches`.  Returns the batches and the drained set. -/
def drain_loop (batchSize : Nat) : Nat → List α → List (List α) × List α
  | 0, links => ([], links)
  | _ + 1, [] => ([], [])
  | fuel + 1, l :: links =>
    let r := drain_loop batchSize fuel ((l :: links).drop batchSize)
    ((l :: links).take batchSize :: r.1, r.2)

/-- `get_captured_links_batches` (source lines 31–38), with the global
`THREADS_TO_USE` passed explicitly as `threads` and the global set
`captured_links` passed as a list in its iteration order.  Returns the
batches together with the final contents of `captured_links`. -/
def get_captured_links_batches (threads : Nat) (links : List α) :
    List (List α) × List α :=
  drain_loop (ceil_div links.length threads) links.length links

/-- The batch sizes produced by `drain_loop`, as a function of the set size
alone. -/
def drain_sizes (batchSize : Nat) : Nat → Nat → List Nat
  | 0, _ => []
  | _ + 1, 0 => []
  | fuel + 1, n + 1 => min batchSize (n + 1) :: drain_sizes batchSize fuel (n + 1 - batchSize)

/-- Remove the head of worker `i`'s remaining append queue (`none` when that
worker has nothing left to append). -/
def take_from : List (List ℚ) → Nat → Option ℚ × List (List ℚ)
  | [], _ => (none, [])
  | w :: ws, 0 =>
    match w with
    | [] => (none, [] :: ws)
    | x :: rest => (some x, rest :: ws)
  | w :: ws, i + 1 =>
    let r := take_from ws i
    (r.1, w :: r.2)

/-- One scheduled step: worker `i` executes its next `list.append` onto the
shared statistics list (a no-op step when worker `i` has nothing left). -/
def append_step (st : List (List ℚ) × List ℚ) (i : Nat) : List (List ℚ) × List ℚ :=
  let r := take_from st.1 i
  match r.1 with
  | some x => (r.2, st.2 ++ [x])
  | none => (r.2, st.2)

/-- Concurrent appends to `downloaded_files_sizes_mb` (source line 92) under
an interleaving: each worker holds the queue of sizes its successful writes
append, a schedule is the global order in which the workers' `list.append`
calls (atomic in CPython) execute, and each scheduled step moves the named
worker's next size onto the shared list.  Returns the workers' leftover
queues and the final shared list. -/
def downloaded_sizes_run (work : List (List ℚ)) (sched : List Nat) :
    List (List ℚ) × List ℚ :=
  sched.foldl append_step (work, [])

/-- Total number of sizes the workers still have to append. -/
def pending_count (ws : List (List ℚ)) : Nat := (ws.map List.length).sum

/-- Total of the sizes the workers still have to append. -/
def pending_total (ws : List (List ℚ)) : ℚ := (ws.map List.sum).sum

/-- A concrete transport whose first attempt raises and whose later attempts
deliver an HTTP 404 response with body `"B"` (exercising that a delivered
error response is not retried). -/
def demo_get (n : Nat) : Option Response :=
  if n = 0 then none else some ⟨404, "B".toList⟩

/-- A concrete environment: mode `v`, output directory `out`, one file
already on disk, one recorded download, a transport that always delivers. -/
def demo_env : Env where
  mode := "v".toList
  output_dir := "out".toList
  fs := [("out/b.mp4".toList, 7)]
  downloaded_files_sizes_mb := [1]
  get := fun _ _ => some ⟨200, "DATA".toList⟩
  open_fails := fun _ => false
  write_fails := fun _ => false

/-- `demo_env` with an empty output directory and every `open(..., "wb")`
raising `OSError`. -/
def demo_env_openfail : Env :=
  { demo_env with fs := [], open_fails := fun _ => true }

/-- `demo_env` with an empty output directory and a transport whose every
attempt raises `RequestException`. -/
def demo_env_allfail : Env :=
  { demo_env with fs := [], get := fun _ _ => none }

/-- Mode-`v` environment over an arbitrary output directory with nothing on
disk. -/
def fresh_env (out : Str) : Env :=
  { demo_env with output_dir := out, fs := [] }

theorem drain_loop_flatten {α : Type} (k : Nat) (hk : 0 < k) :
    ∀ (fuel : Nat) (links : List α), links.length ≤ fuel →
      (drain_loop k fuel links).1.flatten = links ∧ (drain_loop k fuel links).2 = []
  | 0, links, h => by
    have hnil : links = [] := List.eq_nil_of_length_eq_zero (Nat.le_zero.mp h)
    subst hnil
    simp [drain_loop]
  | _ + 1, [], _ => by simp [drain_loop]
  | fuel + 1, l :: links, h => by
    have hlen : ((l :: links).drop k).length ≤ fuel := by
      rw [List.length_drop]
      have : (l :: links).length ≤ fuel + 1 := h
      omega
    have ih := drain_loop_flatten k hk fuel ((l :: links).drop k) hlen
    simp [drain_loop, ih.1, ih.2]

theorem drain_loop_map_length {α : Type} (k : Nat) :
    ∀ (fuel : Nat) (links : List α),
      (drain_loop k fuel links).1.map List.length = drain_sizes k fuel links.length
  | 0, links => by simp [drain_loop, drain_sizes]
  | _ + 1, [] => by simp [drain_loop, drain_sizes]
  | fuel + 1, l :: links => by
    have ih := drain_loop_map_length k fuel ((l :: links).drop k)
    rw [List.length_drop] at ih
    simp [drain_loop, drain_sizes, ih, List.length_take]

/-- C2: for every non-empty link set (a duplicate-free list, in the set's
iteration order) and worker count ≥ 1, the batches produced by
`get_captured_links_batches` are pairwise disjoint, their element counts sum
to the pre-partition set size, and the set is drained empty. -/
theorem partition_disjoint_and_complete {α : Type} (threads : Nat) (links : List α)
    (hthreads : 1 ≤ threads) (hne : links ≠ []) (hnodup : links.Nodup) :
    (get_captured_links_batches threads links).1.Pairwise List.Disjoint ∧
    ((get_captured_links_batches threads links).1.map List.length).sum = links.length ∧
    (get_captured_links_batches threads links).2 = [] := by
  have hlen : 0 < links.length := List.length_pos.mpr hne
  have hk : 0 < ceil_div links.length threads := by
    have : threads ≤ links.length + threads - 1 := by omega
    exact Nat.le_div_iff_mul_le (by omega) |>.mpr (by simpa [ceil_div] using this)
  have hmain := drain_loop_flatten (ceil_div links.length threads) hk links.length links
    (Nat.le_refl _)
  unfold get_captured_links_batches
  refine ⟨?_, ?_, hmain.2⟩
  · exact (List.nodup_flatten.mp (hmain.1.symm ▸ hnodup)).2
  · rw [← List.length_flatten, hmain.1]

theorem partition_disjoint_and_complete_witness :
    (1 ≤ 10 ∧ List.range 23 ≠ [] ∧ (List.range 23).Nodup) ∧
    ((get_captured_links_batches 10 (List.range 23)).1.Pairwise List.Disjoint ∧
     ((get_captured_links_batches 10 (List.range 23)).1.map List.length).sum
        = (List.range 23).length ∧
     (get_captured_links_batches 10 (List.range 23)).2 = []) :=
  ⟨⟨by decide, by decide, by decide⟩,
    partition_disjoint_and_complete 10 (List.range 23) (by decide) (by decide) (by decide)⟩

/-- C1 fails on the code: partitioning 23 links with 10 configured workers
does not produce 10 batches (one per worker), and the batch sizes are not
three 3s followed by seven 2s. -/
theorem partition_23_10_counterexample :
    (get_captured_links_batches 10 (List.range 23)).1.length ≠ 10 ∧
    (get_captured_links_batches 10 (List.range 23)).1.map List.length
      ≠ [3, 3, 3, 2, 2, 2, 2, 2, 2, 2] := by decide

/-- C1 as amended: partitioning a set of 23 captured links with 10 configured
workers yields 8 batches — seven of size 3 and one of size 2 (the loop cuts
batches of `ceil(23/10) = 3` until the set is exhausted, so the batch count is
`ceil(23/3) = 8`, not one per worker) — pairwise disjoint, with union equal to
the original 23 links, draining the set. -/
theorem partition_23_10_amended {α : Type} (links : List α)
    (hlen : links.length = 23) (hnodup : links.Nodup) :
    (get_captured_links_batches 10 links).1.map List.length
      = [3, 3, 3, 3, 3, 3, 3, 2] ∧
    (get_captured_links_batches 10 links).1.Pairwise List.Disjoint ∧
    (get_captured_links_batches 10 links).1.flatten = links ∧
    (get_captured_links_batches 10 links).2 = [] := by
  have hmain := drain_loop_flatten (ceil_div links.length 10)
    (by rw [hlen]; decide) links.length links (Nat.le_refl _)
  have hsizes := drain_loop_map_length (ceil_div links.length 10) links.length links
  unfold get_captured_links_batches
  refine ⟨?_, (List.nodup_flatten.mp (hmain.1.symm ▸ hnodup)).2, hmain.1, hmain.2⟩
  rw [hsizes, hlen]
  decide

theorem partition_23_10_amended_witness :
    ((List.range 23).length = 23 ∧ (List.range 23).Nodup) ∧
    ((get_captured_links_batches 10 (List.range 23)).1.map List.length
        = [3, 3, 3, 3, 3, 3, 3, 2] ∧
     (get_captured_links_batches 10 (List.range 23)).1.Pairwise List.Disjoint ∧
     (get_captured_links_batches 10 (List.range 23)).1.flatten = List.range 23 ∧
     (get_captured_links_batches 10 (List.range 23)).2 = []) :=
  ⟨⟨by decide, by decide⟩, partition_23_10_amended (List.range 23) (by decide) (by decide)⟩

theorem retry_loop_of_success (get : Nat → Option Response) :
    ∀ (n : Nat) (s : FetchState), s.successful = true → retry_loop get n s = s
  | 0, _, _ => rfl
  | n + 1, s, hs => by
    have hstep : fetchStep get s = s := by simp [fetchStep, hs]
    rw [retry_loop, hstep]
    exact retry_loop_of_success get n s hs

theorem retry_loop_all_fail (get : Nat → Option Response)
    (hfail : ∀ k, get k = none) :
    ∀ (n : Nat) (c : PyContent) (a : Nat),
      retry_loop get n ⟨false, c, a⟩ = ⟨false, c, a + n⟩
  | 0, _, _ => rfl
  | n + 1, c, a => by
    have hstep : fetchStep get ⟨false, c, a⟩ = ⟨false, c, a + 1⟩ := by
      simp [fetchStep, hfail]
    rw [retry_loop, hstep, retry_loop_all_fail get hfail n c (a + 1)]
    simp only [FetchState.mk.injEq, true_and]
    omega

/-- C3: against a transport whose every attempt raises a transport exception,
`safely_request_content` performs exactly `MAX_REQUEST_RETRIES = 5` attempts,
returns normally (no exception escapes: each `RequestException` is caught by
the handler), and its returned `content` is the empty string it was
initialised to. -/
theorem retry_exhaustion_bound (get : Nat → Option Response)
    (hfail : ∀ k, get k = none) :
    (safely_request_content get).attempts = MAX_REQUEST_RETRIES ∧
    MAX_REQUEST_RETRIES = 5 ∧
    (safely_request_content get).content = .str "".toList ∧
    (safely_request_content get).successful = false := by
  unfold safely_request_content
  rw [retry_loop_all_fail get hfail]
  exact ⟨rfl, rfl, rfl, rfl⟩

theorem retry_exhaustion_bound_witness :
    (∀ k, (fun _ : Nat => (none : Option Response)) k = none) ∧
    ((safely_request_content (fun _ => none)).attempts = MAX_REQUEST_RETRIES ∧
     MAX_REQUEST_RETRIES = 5 ∧
     (safely_request_content (fun _ => none)).content = .str "".toList ∧
     (safely_request_content (fun _ => none)).successful = false) :=
  ⟨fun _ => rfl, retry_exhaustion_bound (fun _ => none) (fun _ => rfl)⟩

theorem retry_loop_skip_failures (get : Nat → Option Response) (c : PyContent) :
    ∀ (j n a : Nat), j ≤ n → (∀ i, i < j → get (a + i) = none) →
      retry_loop get n ⟨false, c, a⟩ = retry_loop get (n - j) ⟨false, c, a + j⟩
  | 0, n, a, _, _ => by simp
  | j + 1, n, a, hjn, hfail => by
    obtain ⟨m, rfl⟩ : ∃ m, n = m + 1 := ⟨n - 1, by omega⟩
    have h0 : get a = none := by simpa using hfail 0 (by omega)
    have hstep : fetchStep get ⟨false, c, a⟩ = ⟨false, c, a + 1⟩ := by
      simp [fetchStep, h0]
    rw [retry_loop, hstep]
    have ih := retry_loop_skip_failures get c j m (a + 1) (by omega)
      (fun i hi => by
        have := hfail (i + 1) (by omega)
        rwa [show a + (i + 1) = a + 1 + i by omega] at this)
    rw [ih, show m - j = m + 1 - (j + 1) by omega, show a + 1 + j = a + (j + 1) by omega]

/-- C7: if attempts `1, …, k-1` raise transport exceptions and attempt `k`
(with `1 ≤ k ≤ 5`) delivers a response — whatever its HTTP status code —
`safely_request_content` stops after exactly `k` attempts and returns that
response's body. -/
theorem retry_stops_on_first_response (get : Nat → Option Response)
    (r : Response) (k : Nat) (h1 : 1 ≤ k) (h5 : k ≤ MAX_REQUEST_RETRIES)
    (hbefore : ∀ i, i < k - 1 → get i = none) (hk : get (k - 1) = some r) :
    safely_request_content get = ⟨true, .bytes r.body, k⟩ := by
  unfold safely_request_content
  rw [retry_loop_skip_failures get _ (k - 1) MAX_REQUEST_RETRIES 0 (by omega)
    (fun i hi => by simpa using hbefore i hi)]
  obtain ⟨m, hm⟩ : ∃ m, MAX_REQUEST_RETRIES - (k - 1) = m + 1 :=
    ⟨MAX_REQUEST_RETRIES - k, by omega⟩
  rw [show (0 : Nat) + (k - 1) = k - 1 by omega, hm]
  have hstep : fetchStep get ⟨false, .str "".toList, k - 1⟩
      = ⟨true, .bytes r.body, k - 1 + 1⟩ := by simp [fetchStep, hk]
  rw [retry_loop, hstep, retry_loop_of_success get m _ rfl,
    show k - 1 + 1 = k by omega]

theorem retry_stops_on_first_response_witness :
    (1 ≤ 2 ∧ 2 ≤ MAX_REQUEST_RETRIES ∧
     (∀ i, i < 2 - 1 → demo_get i = none) ∧
     demo_get (2 - 1) = some ⟨404, "B".toList⟩) ∧
    safely_request_content demo_get = ⟨true, .bytes "B".toList, 2⟩ :=
  ⟨⟨by decide, by decide,
      fun i hi => by
        have : i = 0 := by omega
        subst this
        rfl,
      rfl⟩,
    retry_stops_on_first_response demo_get ⟨404, "B".toList⟩ 2 (by decide) (by decide)
      (fun i hi => by
        have : i = 0 := by omega
        subst this
        rfl)
      rfl⟩

theorem save_file_of_duplicate (env : Env) (link : Str)
    (hdup : is_duplicate env.fs (save_file_path env link) = true) :
    save_file env link = ⟨.ok false, 0, env.fs, env.downloaded_files_sizes_mb⟩ := by
  simp [save_file, hdup]

theorem save_file_of_open_fails (env : Env) (link : Str)
    (hdup : is_duplicate env.fs (save_file_path env link) = false)
    (hopen : env.open_fails (save_file_path env link) = true) :
    save_file env link = ⟨.ok false, 0, env.fs, env.downloaded_files_sizes_mb⟩ := by
  simp [save_file, hdup, hopen]

theorem fetch_first_success (get : Nat → Option Response) (r : Response)
    (h0 : get 0 = some r) :
    safely_request_content get = ⟨true, .bytes r.body, 1⟩ := by
  unfold safely_request_content
  have hstep : fetchStep get ⟨false, .str "".toList, 0⟩ = ⟨true, .bytes r.body, 1⟩ := by
    simp [fetchStep, h0]
  show retry_loop get (4 + 1) _ = _
  rw [retry_loop, hstep, retry_loop_of_success get 4 _ rfl]

theorem save_file_of_write_fails (env : Env) (link : Str)
    (hdup : is_duplicate env.fs (save_file_path env link) = false)
    (hopen : env.open_fails (save_file_path env link) = false)
    (hwrite : env.write_fails (save_file_path env link) = true)
    (r : Response) (h0 : env.get (derive_names env.mode link).1 0 = some r) :
    save_file env link
      = ⟨.ok false, 1, fs_set env.fs (save_file_path env link) 0,
         env.downloaded_files_sizes_mb⟩ := by
  simp [save_file, hdup, hopen, hwrite, fetch_first_success _ r h0]

theorem run_batch_cons_ok (env : Env) (link : Str) (rest : List Str) (b : Bool)
    (hok : (save_file env link).result = .ok b) :
    run_batch env (link :: rest)
      = (b :: (run_batch (env_after env (save_file env link)) rest).1,
         (run_batch (env_after env (save_file env link)) rest).2.1,
         (run_batch (env_after env (save_file env link)) rest).2.2) := by
  simp [run_batch, hok]

/-- C5: on a link whose derived output path already exists, `save_file`
performs zero network calls, leaves the filesystem and the
`downloaded_files_sizes_mb` statistics unchanged, and returns `False`. -/
theorem duplicate_skips_network (env : Env) (input_ : Str)
    (hdup : is_duplicate env.fs (save_file_path env input_) = true) :
    save_file env input_ = ⟨.ok false, 0, env.fs, env.downloaded_files_sizes_mb⟩ :=
  save_file_of_duplicate env input_ hdup

theorem duplicate_skips_network_witness :
    (is_duplicate demo_env.fs (save_file_path demo_env "a/b".toList) = true) ∧
    save_file demo_env "a/b".toList
      = ⟨.ok false, 0, demo_env.fs, demo_env.downloaded_files_sizes_mb⟩ :=
  ⟨by decide, duplicate_skips_network demo_env "a/b".toList (by decide)⟩

/-- C8: when `open(file_path, "wb")` or the write raises `OSError`,
`save_file` returns `False` (the exception is caught, not propagated),
appends nothing to `downloaded_files_sizes_mb`, and the worker proceeds with
the remaining links of its batch. -/
theorem filesystem_failure_nonfatal (env : Env) (link : Str) (rest : List Str)
    (h : env.open_fails (save_file_path env link) = true ∨
         (env.write_fails (save_file_path env link) = true ∧
          ∃ r, env.get (derive_names env.mode link).1 0 = some r)) :
    (save_file env link).result = .ok false ∧
    (save_file env link).downloaded_files_sizes_mb = env.downloaded_files_sizes_mb ∧
    run_batch env (link :: rest)
      = (false :: (run_batch (env_after env (save_file env link)) rest).1,
         (run_batch (env_after env (save_file env link)) rest).2.1,
         (run_batch (env_after env (save_file env link)) rest).2.2) := by
  have hres : (save_file env link).result = .ok false ∧
      (save_file env link).downloaded_files_sizes_mb
        = env.downloaded_files_sizes_mb := by
    by_cases hdup : is_duplicate env.fs (save_file_path env link) = true
    · rw [save_file_of_duplicate env link hdup]
      exact ⟨rfl, rfl⟩
    · rcases h with hopen | ⟨hwrite, ⟨r, h0⟩⟩
      · rw [save_file_of_open_fails env link (by simpa using hdup) hopen]
        exact ⟨rfl, rfl⟩
      · by_cases hopen : env.open_fails (save_file_path env link) = true
        · rw [save_file_of_open_fails env link (by simpa using hdup) hopen]
          exact ⟨rfl, rfl⟩
        · rw [save_file_of_write_fails env link (by simpa using hdup)
            (by simpa using hopen) hwrite r h0]
          exact ⟨rfl, rfl⟩
  exact ⟨hres.1, hres.2, run_batch_cons_ok env link rest false hres.1⟩

theorem filesystem_failure_nonfatal_witness :
    (demo_env_openfail.open_fails (save_file_path demo_env_openfail "a/b".toList) = true ∨
     (demo_env_openfail.write_fails (save_file_path demo_env_openfail "a/b".toList) = true ∧
      ∃ r, demo_env_openfail.get (derive_names demo_env_openfail.mode "a/b".toList).1 0
        = some r)) ∧
    ((save_file demo_env_openfail "a/b".toList).result = .ok false ∧
     (save_file demo_env_openfail "a/b".toList).downloaded_files_sizes_mb
        = demo_env_openfail.downloaded_files_sizes_mb ∧
     run_batch demo_env_openfail ["a/b".toList, "c/d".toList]
       = (false :: (run_batch (env_after demo_env_openfail
             (save_file demo_env_openfail "a/b".toList)) ["c/d".toList]).1,
          (run_batch (env_after demo_env_openfail
             (save_file demo_env_openfail "a/b".toList)) ["c/d".toList]).2.1,
          (run_batch (env_after demo_env_openfail
             (save_file demo_env_openfail "a/b".toList)) ["c/d".toList]).2.2)) :=
  ⟨Or.inl rfl,
    filesystem_failure_nonfatal demo_env_openfail "a/b".toList ["c/d".toList] (Or.inl rfl)⟩

/-- C4 describes the spec's intent, but the code diverges: after the retry
budget is exhausted, `content` is still the *str* `""`, and `file.write("")`
on the binary-mode file raises `TypeError`, which `except OSError` does not
catch — the exception escapes `save_file` (killing the worker's remaining
batch), although indeed nothing is appended to `downloaded_files_sizes_mb`
and the download is not counted as successful.  Evaluated on a concrete
always-failing transport: 5 attempts, then an uncaught `TypeError`, and the
two-link batch is abandoned after the first link. -/
theorem exhausted_fetch_raises_typeerror :
    (save_file demo_env_allfail "x/SomeId".toList).result = .error .typeError ∧
    (save_file demo_env_allfail "x/SomeId".toList).downloaded_files_sizes_mb
      = demo_env_allfail.downloaded_files_sizes_mb ∧
    (save_file demo_env_allfail "x/SomeId".toList).networkCalls = MAX_REQUEST_RETRIES ∧
    (run_batch demo_env_allfail ["x/SomeId".toList, "y/Other".toList]).1 = [] ∧
    (run_batch demo_env_allfail ["x/SomeId".toList, "y/Other".toList]).2.2
      = some .typeError :=
  ⟨rfl, rfl, rfl, rfl, rfl⟩

/-- C6: the spec's literal filename-derivation cases.
`https://thumbs.example.com/AbcXyz123-mobile.jpg?w=200` derives id
`AbcXyz123`, is fetched from the raw link itself, and lands at
`<out>/AbcXyz123.jpg`; `https://thumbs.example.com/SomeId456-large#frag` in
mode `v` derives id `SomeId456`, true URL
`https://api.redgifs.com/v2/gifs/someid456/files/SomeId456.mp4`, output file
`SomeId456.mp4`. -/
theorem filename_derivation_literal_cases (out : Str) :
    extract_file_name "https://thumbs.example.com/AbcXyz123-mobile.jpg?w=200".toList
      = "AbcXyz123".toList ∧
    derive_names "v".toList "https://thumbs.example.com/AbcXyz123-mobile.jpg?w=200".toList
      = ("https://thumbs.example.com/AbcXyz123-mobile.jpg?w=200".toList,
         "AbcXyz123.jpg".toList) ∧
    save_file_path (fresh_env out) "https://thumbs.example.com/AbcXyz123-mobile.jpg?w=200".toList
      = out ++ "/AbcXyz123.jpg".toList ∧
    extract_file_name "https://thumbs.example.com/SomeId456-large#frag".toList
      = "SomeId456".toList ∧
    derive_names "v".toList "https://thumbs.example.com/SomeId456-large#frag".toList
      = ("https://api.redgifs.com/v2/gifs/someid456/files/SomeId456.mp4".toList,
         "SomeId456.mp4".toList) ∧
    save_file_path (fresh_env out) "https://thumbs.example.com/SomeId456-large#frag".toList
      = out ++ "/SomeId456.mp4".toList := by
  refine ⟨by decide, by decide, ?_, by decide, by decide, ?_⟩
  · show out ++ "/".toList ++ _ = _
    rw [List.append_assoc]
    rfl
  · show out ++ "/".toList ++ _ = _
    rw [List.append_assoc]
    rfl

/-- C10: any input with no `/` separator falls into the
`len(name_parts) > 1` guard's else branch, so `extract_file_name` returns the
constant `"ERROR"`; in every mode other than `"s"`, all such links therefore
share one derived output filename — `ERROR.jpg` when the raw link contains
`.jpg`, `ERROR.mp4` otherwise. -/
theorem no_separator_collapses_to_error (url mode : Str)
    (hns : pyContains url "/".toList = false) (hmode : mode ≠ "s".toList) :
    extract_file_name url = "ERROR".toList ∧
    (derive_names mode url).2
      = (if pyContains url ".jpg".toList then "ERROR.jpg".toList
         else "ERROR.mp4".toList) := by
  have hparts : ¬ (1 < (pySplit url "/".toList).length) := by
    simp only [pyContains, decide_eq_false_iff_not] at hns
    omega
  have hextract : extract_file_name url = "ERROR".toList := by
    unfold extract_file_name
    rw [if_neg hparts]
  refine ⟨hextract, ?_⟩
  unfold derive_names
  rw [if_neg hmode, hextract]
  by_cases hjpg : pyContains url ".jpg".toList = true
  · rw [if_pos hjpg, if_pos hjpg]
    rfl
  · rw [if_neg hjpg, if_neg hjpg]
    rfl

theorem take_from_spec : ∀ (ws : List (List ℚ)) (i : Nat),
    (∀ x, (take_from ws i).1 = some x →
        pending_count (take_from ws i).2 + 1 = pending_count ws ∧
        pending_total (take_from ws i).2 + x = pending_total ws) ∧
    ((take_from ws i).1 = none → (take_from ws i).2 = ws)
  | [], i => by simp [take_from]
  | w :: ws, 0 => by
    cases w with
    | nil => simp [take_from]
    | cons x rest =>
      refine ⟨fun y hy => ?_, fun h => by simp [take_from] at h⟩
      have hy' : x = y := by simpa [take_from] using hy
      subst hy'
      have h2 : (take_from ((x :: rest) :: ws) 0).2 = rest :: ws := rfl
      rw [h2]
      constructor
      · simp [pending_count]
        omega
      · simp [pending_total]
        ring
  | w :: ws, i + 1 => by
    have ih := take_from_spec ws i
    have h1 : (take_from (w :: ws) (i + 1)).1 = (take_from ws i).1 := rfl
    have h2 : (take_from (w :: ws) (i + 1)).2 = w :: (take_from ws i).2 := rfl
    rw [h1, h2]
    constructor
    · intro x hx
      have hspec := ih.1 x hx
      constructor
      · simp only [pending_count, List.map_cons, List.sum_cons] at hspec ⊢
        omega
      · simp only [pending_total, List.map_cons, List.sum_cons] at hspec ⊢
        linarith [hspec.2]
    · intro hx
      rw [ih.2 hx]

theorem append_run_invariant : ∀ (sched : List Nat) (work : List (List ℚ)) (stats : List ℚ),
    (sched.foldl append_step (work, stats)).2.length
        + pending_count (sched.foldl append_step (work, stats)).1
      = stats.length + pending_count work ∧
    (sched.foldl append_step (work, stats)).2.sum
        + pending_total (sched.foldl append_step (work, stats)).1
      = stats.sum + pending_total work
  | [], _, _ => ⟨rfl, rfl⟩
  | i :: sched, work, stats => by
    rw [List.foldl_cons]
    rcases hr : (take_from work i).1 with _ | x
    · have hstep : append_step (work, stats) i = ((take_from work i).2, stats) := by
        simp [append_step, hr]
      rw [hstep, (take_from_spec work i).2 hr]
      exact append_run_invariant sched work stats
    · have hspec := (take_from_spec work i).1 x hr
      have hstep : append_step (work, stats) i = ((take_from work i).2, stats ++ [x]) := by
        simp [append_step, hr]
      rw [hstep]
      have ih := append_run_invariant sched (take_from work i).2 (stats ++ [x])
      constructor
      · rw [ih.1]
        simp only [List.length_append, List.length_cons, List.length_nil]
        have h1 := hspec.1
        omega
      · rw [ih.2]
        simp only [List.sum_append, List.sum_cons, List.sum_nil, add_zero]
        linarith [hspec.2]

theorem sum_map_length_const : ∀ (l : List (List ℚ)) (K : Nat),
    (∀ w ∈ l, w.length = K) → (l.map List.length).sum = l.length * K
  | [], _, _ => by simp
  | w :: l, K, h => by
    rw [List.map_cons, List.sum_cons,
      sum_map_length_const l K (fun v hv => h v (List.mem_cons_of_mem _ hv)),
      h w (List.mem_cons_self w l), List.length_cons]
    ring

/-- C9: whatever the interleaving of the workers' atomic `list.append` calls,
once `N` workers have each executed their `K` appends of known sizes, the
shared `downloaded_files_sizes_mb` list has exactly `N * K` entries and their
sum equals the sum of all the individual sizes — no update is lost. -/
theorem stats_no_lost_updates (work : List (List ℚ)) (sched : List Nat) (N K : Nat)
    (hN : work.length = N) (hK : ∀ w ∈ work, w.length = K)
    (hdone : ∀ w ∈ (downloaded_sizes_run work sched).1, w = []) :
    (downloaded_sizes_run work sched).2.length = N * K ∧
    (downloaded_sizes_run work sched).2.sum = (work.map List.sum).sum := by
  unfold downloaded_sizes_run at hdone ⊢
  have hinv := append_run_invariant sched work []
  have hpc0 : pending_count (sched.foldl append_step (work, [])).1 = 0 := by
    unfold pending_count
    apply List.sum_eq_zero
    intro n hn
    simp only [List.mem_map] at hn
    obtain ⟨w, hw, hlen⟩ := hn
    rw [← hlen, hdone w hw]
    rfl
  have hpt0 : pending_total (sched.foldl append_step (work, [])).1 = 0 := by
    unfold pending_total
    apply List.sum_eq_zero
    intro q hq
    simp only [List.mem_map] at hq
    obtain ⟨w, hw, hsum⟩ := hq
    rw [← hsum, hdone w hw]
    rfl
  have hcount : pending_count work = N * K := by
    unfold pending_count
    rw [sum_map_length_const work K hK, hN]
  constructor
  · have h1 := hinv.1
    rw [hpc0, hcount] at h1
    simpa using h1
  · have h2 := hinv.2
    rw [hpt0] at h2
    simpa [pending_total] using h2

theorem stats_no_lost_updates_witness :
    (([[(1 : ℚ), 2], [3, 4]] : List (List ℚ)).length = 2 ∧
     (∀ w ∈ ([[(1 : ℚ), 2], [3, 4]] : List (List ℚ)), w.length = 2) ∧
     (∀ w ∈ (downloaded_sizes_run [[(1 : ℚ), 2], [3, 4]] [0, 1, 0, 1]).1, w = [])) ∧
    ((downloaded_sizes_run [[(1 : ℚ), 2], [3, 4]] [0, 1, 0, 1]).2.length = 2 * 2 ∧
     (downloaded_sizes_run [[(1 : ℚ), 2], [3, 4]] [0, 1, 0, 1]).2.sum
       = (([[(1 : ℚ), 2], [3, 4]] : List (List ℚ)).map List.sum).sum) :=
  ⟨⟨by decide, by decide, by decide⟩,
    stats_no_lost_updates [[(1 : ℚ), 2], [3, 4]] [0, 1, 0, 1] 2 2
      (by decide) (by decide) (by decide)⟩

theorem no_separator_collapses_to_error_witness :
    (pyContains "abc".toList "/".toList = false ∧ "v".toList ≠ "s".toList) ∧
    (extract_file_name "abc".toList = "ERROR".toList ∧
     (derive_names "v".toList "abc".toList).2
       = (if pyContains "abc".toList ".jpg".toList then "ERROR.jpg".toList
          else "ERROR.mp4".toList)) :=
  ⟨⟨by decide, by decide⟩,
    no_separator_collapses_to_error "abc".toList "v".toList (by decide) (by decide)⟩
